import Mathlib

/-!
Verification of the color-classification pipeline of the Rubik-Solver-AI
front-end: the sRGB-to-LAB color-space converter `rgbToLab`, the
nearest-centroid classifier `getClosestColor` over the fixed table
`COLOR_CENTROIDS`, the pixel-averaging sampler used by `captureFace`, and
the cube-state face update `handleFaceScan`.  JavaScript numbers are
modelled as real numbers; `Math.pow` is `Real.rpow`, `Math.sqrt` is
`Real.sqrt`, and the `Infinity` sentinel of the classifier loop is the top
element of `WithTop ℝ`.
-/

noncomputable section

/-- The six sticker colors (`Color` in `types.ts`). -/
inductive Color where
  | white
  | yellow
  | red
  | orange
  | blue
  | green
deriving DecidableEq

/-- A point of the LAB color space: lightness and two chroma axes. -/
abbrev Lab := ℝ × ℝ × ℝ

/-- The per-channel gamma expansion applied by `rgbToLab` to each
normalized channel: power-law branch for normalized input above 0.04045,
linear branch (division by 12.92) otherwise. -/
def gammaExpand (v : ℝ) : ℝ :=
  if v > 0.04045 then ((v + 0.055) / 1.055) ^ (2.4 : ℝ) else v / 12.92

/-- The per-coordinate piecewise cube-root map of the XYZ-to-LAB stage:
cube root above 0.008856, affine map `7.787 * t + 16 / 116` otherwise. -/
def labF (t : ℝ) : ℝ :=
  if t > 0.008856 then t ^ ((1 : ℝ) / 3) else 7.787 * t + 16 / 116

/-- `rgbToLab` from the Scanner component: normalize each channel to
[0,1], gamma-expand, combine with the fixed RGB-to-XYZ (D65) matrix
scaled by 100, divide by the reference white point (95.047, 100.000,
108.883), apply `labF` per coordinate, and assemble (L, a, b). -/
def rgbToLab (r g b : ℝ) : Lab :=
  let rN := gammaExpand (r / 255)
  let gN := gammaExpand (g / 255)
  let bN := gammaExpand (b / 255)
  let x := (rN * 0.4124 + gN * 0.3576 + bN * 0.1805) * 100
  let y := (rN * 0.2126 + gN * 0.7152 + bN * 0.0722) * 100
  let z := (rN * 0.0193 + gN * 0.1192 + bN * 0.9505) * 100
  let fx := labF (x / 95.047)
  let fy := labF (y / 100.000)
  let fz := labF (z / 108.883)
  (116 * fy - 16, 500 * (fx - fy), 200 * (fy - fz))

/-- The converter as the specification words it: normalize to [0,1];
linear gamma branch at or below 0.04045, power-law branch above; combine
with the fixed 3x3 matrix into an intermediate XYZ triple; divide each
coordinate by its reference white-point constant; cube root above
0.008856, else `7.787 * v + 16 / 116`; return
`(116 * fy - 16, 500 * (fx - fy), 200 * (fy - fz))`. -/
def rgbToLabSpec (r g b : ℝ) : Lab :=
  let expand : ℝ → ℝ := fun v =>
    if v ≤ 0.04045 then v / 12.92 else ((v + 0.055) / 1.055) ^ (2.4 : ℝ)
  let f : ℝ → ℝ := fun t =>
    if t ≤ 0.008856 then 7.787 * t + 16 / 116 else t ^ ((1 : ℝ) / 3)
  let rl := expand (r / 255)
  let gl := expand (g / 255)
  let bl := expand (b / 255)
  let xCoord := 41.24 * rl + 35.76 * gl + 18.05 * bl
  let yCoord := 21.26 * rl + 71.52 * gl + 7.22 * bl
  let zCoord := 1.93 * rl + 11.92 * gl + 95.05 * bl
  let fx := f (xCoord / 95.047)
  let fy := f (yCoord / 100.000)
  let fz := f (zCoord / 108.883)
  (116 * fy - 16, 500 * (fx - fy), 200 * (fy - fz))

/-- The calibrated LAB centroid table, in the insertion order of the
source object literal: white, yellow, red, orange, blue, green. -/
def COLOR_CENTROIDS : List (Color × Lab) :=
  [(Color.white, (95, 0, 0)),
   (Color.yellow, (85, -10, 80)),
   (Color.red, (45, 60, 45)),
   (Color.orange, (65, 45, 65)),
   (Color.blue, (35, 10, -50)),
   (Color.green, (55, -50, 40))]

/-- `COLOR_MAP` from `constants.tsx` with its hex literals decoded to
RGB triples: #FFFFFF, #FFD700, #DC2626, #F97316, #2563EB, #16A34A. -/
def COLOR_MAP (c : Color) : ℕ × ℕ × ℕ :=
  match c with
  | Color.white => (255, 255, 255)
  | Color.yellow => (255, 215, 0)
  | Color.red => (220, 38, 38)
  | Color.orange => (249, 115, 22)
  | Color.blue => (37, 99, 235)
  | Color.green => (22, 163, 74)

/-- The centroid associated to each label in `COLOR_CENTROIDS`. -/
def centroidOf (c : Color) : Lab :=
  match c with
  | Color.white => (95, 0, 0)
  | Color.yellow => (85, -10, 80)
  | Color.red => (45, 60, 45)
  | Color.orange => (65, 45, 65)
  | Color.blue => (35, 10, -50)
  | Color.green => (55, -50, 40)

/-- Delta E: the Euclidean distance in LAB space computed inside the
classifier loop. -/
def deltaE (p q : Lab) : ℝ :=
  Real.sqrt ((p.1 - q.1) ^ 2 + (p.2.1 - q.2.1) ^ 2 + (p.2.2 - q.2.2) ^ 2)

/-- One iteration of the classifier loop: replace the accumulator when
the current entry is strictly closer than the best distance so far. -/
def selectStep (lab : Lab) (acc : Color × WithTop ℝ) (e : Color × Lab) :
    Color × WithTop ℝ :=
  if (deltaE lab e.2 : WithTop ℝ) < acc.2 then (e.1, (deltaE lab e.2 : WithTop ℝ))
  else acc

/-- The classifier's selection: fold the loop over the centroid table
starting from `closest = white`, `minDistance = Infinity`. -/
def selectClosest (lab : Lab) : Color :=
  (COLOR_CENTROIDS.foldl (selectStep lab) (Color.white, ⊤)).1

/-- `getClosestColor`: convert to LAB, then select the closest centroid. -/
def getClosestColor (r g b : ℝ) : Color :=
  selectClosest (rgbToLab r g b)

/-- One RGBA pixel of an `ImageData` buffer (each component 0..255). -/
abbrev Rgba := ℕ × ℕ × ℕ × ℕ

/-- The accumulation loop of `captureFace` over a sampled region: sum the
r, g, b channels over all pixels. -/
def sampleSums (data : List Rgba) : ℝ × ℝ × ℝ :=
  data.foldl (fun acc p => (acc.1 + (p.1 : ℝ), acc.2.1 + (p.2.1 : ℝ), acc.2.2 + (p.2.2.1 : ℝ)))
    (0, 0, 0)

/-- The sampler's averaged RGB triple: channel sums divided by the pixel
count (`imgData.length / 4` in the source). -/
def sampleAverage (data : List Rgba) : ℝ × ℝ × ℝ :=
  let s := sampleSums data
  let n : ℝ := (data.length : ℝ)
  (s.1 / n, s.2.1 / n, s.2.2 / n)

/-- The channel-wise arithmetic mean, as the specification words it. -/
def channelMean (data : List Rgba) : ℝ × ℝ × ℝ :=
  ((data.map fun p => (p.1 : ℝ)).sum / (data.length : ℝ),
   (data.map fun p => (p.2.1 : ℝ)).sum / (data.length : ℝ),
   (data.map fun p => (p.2.2.1 : ℝ)).sum / (data.length : ℝ))

/-- A scanned face: a 3x3 grid of colors (`Face` in `types.ts`). -/
abbrev Face := List (List Color)

/-- The grid-building loop of `captureFace`: for each of the nine cells,
average that cell's sampled 10x10 window and classify the mean.  The
pixel data of each cell's window is supplied by the capture collaborator
as `sample row col`. -/
def captureFace (sample : ℕ → ℕ → List Rgba) : Face :=
  (List.range 3).map fun row =>
    (List.range 3).map fun col =>
      let avg := sampleAverage (sample row col)
      getClosestColor avg.1 avg.2.1 avg.2.2

/-- The body of one grid-cell iteration of `captureFace`: average the
cell's sampled window and classify the mean. -/
def classifyCell (sample : ℕ → ℕ → List Rgba) (row col : ℕ) : Color :=
  let avg := sampleAverage (sample row col)
  getClosestColor avg.1 avg.2.1 avg.2.2

/-- The six face identifiers of the cube state. -/
inductive FaceKey where
  | U
  | D
  | L
  | R
  | F
  | B
deriving DecidableEq

/-- The cube state: one face per face identifier (`CubeState` in
`types.ts`). -/
structure CubeState where
  U : Face
  D : Face
  L : Face
  R : Face
  F : Face
  B : Face

/-- Read one face of the cube state. -/
def getFace (s : CubeState) (k : FaceKey) : Face :=
  match k with
  | FaceKey.U => s.U
  | FaceKey.D => s.D
  | FaceKey.L => s.L
  | FaceKey.R => s.R
  | FaceKey.F => s.F
  | FaceKey.B => s.B

/-- `handleFaceScan` from the App component: the spread update
`{...prev, [faceKey]: faceData}` replacing exactly the scanned face. -/
def handleFaceScan (prev : CubeState) (k : FaceKey) (faceData : Face) : CubeState :=
  match k with
  | FaceKey.U => { prev with U := faceData }
  | FaceKey.D => { prev with D := faceData }
  | FaceKey.L => { prev with L := faceData }
  | FaceKey.R => { prev with R := faceData }
  | FaceKey.F => { prev with F := faceData }
  | FaceKey.B => { prev with B := faceData }

/-- `createFace` from `constants.tsx`: a uniform 3x3 face. -/
def createFace (c : Color) : Face :=
  [[c, c, c], [c, c, c], [c, c, c]]

/-- `INITIAL_CUBE_STATE` from `constants.tsx`. -/
def INITIAL_CUBE_STATE : CubeState :=
  { U := createFace Color.white
    D := createFace Color.yellow
    L := createFace Color.orange
    R := createFace Color.red
    F := createFace Color.green
    B := createFace Color.blue }

end

/-! ### Bounding lemmas for real powers -/

lemma le_rpow_24 (u a : ℝ) (hu : 0 ≤ u) (ha : 0 ≤ a) (h : a ^ 5 ≤ u ^ 12) :
    a ≤ u ^ (2.4 : ℝ) := by
  have key : (u ^ (2.4 : ℝ)) ^ (5 : ℕ) = u ^ (12 : ℕ) := by
    rw [← Real.rpow_natCast (u ^ (2.4 : ℝ)) 5, ← Real.rpow_mul hu]
    rw [show (2.4 : ℝ) * ((5 : ℕ) : ℝ) = ((12 : ℕ) : ℝ) by norm_num, Real.rpow_natCast]
  exact (pow_le_pow_iff_left₀ ha (Real.rpow_nonneg hu _) (by norm_num : (5 : ℕ) ≠ 0)).mp
    (by rw [key]; exact h)

lemma rpow_24_le (u c : ℝ) (hu : 0 ≤ u) (hc : 0 ≤ c) (h : u ^ 12 ≤ c ^ 5) :
    u ^ (2.4 : ℝ) ≤ c := by
  have key : (u ^ (2.4 : ℝ)) ^ (5 : ℕ) = u ^ (12 : ℕ) := by
    rw [← Real.rpow_natCast (u ^ (2.4 : ℝ)) 5, ← Real.rpow_mul hu]
    rw [show (2.4 : ℝ) * ((5 : ℕ) : ℝ) = ((12 : ℕ) : ℝ) by norm_num, Real.rpow_natCast]
  exact (pow_le_pow_iff_left₀ (Real.rpow_nonneg hu _) hc (by norm_num : (5 : ℕ) ≠ 0)).mp
    (by rw [key]; exact h)

lemma le_cbrt (t a : ℝ) (ht : 0 ≤ t) (ha : 0 ≤ a) (h : a ^ 3 ≤ t) :
    a ≤ t ^ ((1 : ℝ) / 3) := by
  have key : (t ^ ((1 : ℝ) / 3)) ^ (3 : ℕ) = t := by
    rw [← Real.rpow_natCast (t ^ ((1 : ℝ) / 3)) 3, ← Real.rpow_mul ht]
    rw [show (1 : ℝ) / 3 * ((3 : ℕ) : ℝ) = 1 by norm_num, Real.rpow_one]
  exact (pow_le_pow_iff_left₀ ha (Real.rpow_nonneg ht _) (by norm_num : (3 : ℕ) ≠ 0)).mp
    (by rw [key]; exact h)

lemma cbrt_le (t c : ℝ) (ht : 0 ≤ t) (hc : 0 ≤ c) (h : t ≤ c ^ 3) :
    t ^ ((1 : ℝ) / 3) ≤ c := by
  have key : (t ^ ((1 : ℝ) / 3)) ^ (3 : ℕ) = t := by
    rw [← Real.rpow_natCast (t ^ ((1 : ℝ) / 3)) 3, ← Real.rpow_mul ht]
    rw [show (1 : ℝ) / 3 * ((3 : ℕ) : ℝ) = 1 by norm_num, Real.rpow_one]
  exact (pow_le_pow_iff_left₀ (Real.rpow_nonneg ht _) hc (by norm_num : (3 : ℕ) ≠ 0)).mp
    (by rw [key]; exact h)

/-! ### Range lemmas for the converter stages -/

lemma gammaExpand_mem (v : ℝ) (hv0 : 0 ≤ v) (hv1 : v ≤ 1) :
    0 ≤ gammaExpand v ∧ gammaExpand v ≤ 1 := by
  unfold gammaExpand
  split_ifs with h
  · have hb0 : (0 : ℝ) ≤ (v + 0.055) / 1.055 := by positivity
    have hb1 : (v + 0.055) / 1.055 ≤ 1 := by
      rw [div_le_one (by norm_num : (0 : ℝ) < 1.055)]
      linarith
    exact ⟨Real.rpow_nonneg hb0 _, Real.rpow_le_one hb0 hb1 (by norm_num)⟩
  · constructor
    · positivity
    · rw [div_le_one (by norm_num : (0 : ℝ) < 12.92)]
      linarith

lemma labF_mem (t : ℝ) (ht0 : 0 ≤ t) (ht1 : t ≤ 1) :
    16 / 116 ≤ labF t ∧ labF t ≤ 1 := by
  unfold labF
  split_ifs with h
  · constructor
    · exact le_cbrt t (16 / 116) ht0 (by norm_num)
        (by nlinarith [show ((16 : ℝ) / 116) ^ 3 ≤ 0.008856 by norm_num])
    · exact cbrt_le t 1 ht0 (by norm_num) (by nlinarith)
  · push_neg at h
    constructor <;> linarith

lemma lightness_mem (r g b : ℝ) (hr0 : 0 ≤ r) (hr1 : r ≤ 255) (hg0 : 0 ≤ g)
    (hg1 : g ≤ 255) (hb0 : 0 ≤ b) (hb1 : b ≤ 255) :
    0 ≤ (rgbToLab r g b).1 ∧ (rgbToLab r g b).1 ≤ 100 := by
  obtain ⟨hrN0, hrN1⟩ := gammaExpand_mem (r / 255) (by positivity) (by linarith)
  obtain ⟨hgN0, hgN1⟩ := gammaExpand_mem (g / 255) (by positivity) (by linarith)
  obtain ⟨hbN0, hbN1⟩ := gammaExpand_mem (b / 255) (by positivity) (by linarith)
  have hy0 : 0 ≤ (gammaExpand (r / 255) * 0.2126 + gammaExpand (g / 255) * 0.7152 +
      gammaExpand (b / 255) * 0.0722) * 100 / 100.000 := by linarith
  have hy1 : (gammaExpand (r / 255) * 0.2126 + gammaExpand (g / 255) * 0.7152 +
      gammaExpand (b / 255) * 0.0722) * 100 / 100.000 ≤ 1 := by linarith
  obtain ⟨hf0, hf1⟩ := labF_mem _ hy0 hy1
  have hL : (rgbToLab r g b).1 = 116 * labF ((gammaExpand (r / 255) * 0.2126 +
      gammaExpand (g / 255) * 0.7152 + gammaExpand (b / 255) * 0.0722) * 100 / 100.000) - 16 :=
    rfl
  rw [hL]
  constructor <;> linarith

lemma gamma_branch_eq (v : ℝ) :
    (if v ≤ 0.04045 then v / 12.92 else ((v + 0.055) / 1.055) ^ (2.4 : ℝ)) =
      gammaExpand v := by
  unfold gammaExpand
  split_ifs with h1 h2 <;> first | rfl | linarith

lemma labF_branch_eq (t : ℝ) :
    (if t ≤ 0.008856 then 7.787 * t + 16 / 116 else t ^ ((1 : ℝ) / 3)) = labF t := by
  unfold labF
  split_ifs with h1 h2 <;> first | rfl | linarith

lemma rgbToLab_eq_spec_real (r g b : ℝ) : rgbToLab r g b = rgbToLabSpec r g b := by
  simp only [rgbToLab, rgbToLabSpec, gamma_branch_eq, labF_branch_eq]
  have hx : (41.24 * gammaExpand (r / 255) + 35.76 * gammaExpand (g / 255) +
      18.05 * gammaExpand (b / 255)) = (gammaExpand (r / 255) * 0.4124 +
      gammaExpand (g / 255) * 0.3576 + gammaExpand (b / 255) * 0.1805) * 100 := by ring
  have hy : (21.26 * gammaExpand (r / 255) + 71.52 * gammaExpand (g / 255) +
      7.22 * gammaExpand (b / 255)) = (gammaExpand (r / 255) * 0.2126 +
      gammaExpand (g / 255) * 0.7152 + gammaExpand (b / 255) * 0.0722) * 100 := by ring
  have hz : (1.93 * gammaExpand (r / 255) + 11.92 * gammaExpand (g / 255) +
      95.05 * gammaExpand (b / 255)) = (gammaExpand (r / 255) * 0.0193 +
      gammaExpand (g / 255) * 0.1192 + gammaExpand (b / 255) * 0.9505) * 100 := by ring
  rw [hx, hy, hz]

/-- C1: on every triple of 8-bit channel intensities, `rgbToLab` computes
its output exactly by the specified algorithm (normalize, piecewise gamma
expansion with threshold 0.04045, fixed matrix to XYZ, white-point
division by (95.047, 100.000, 108.883), piecewise cube root with
threshold 0.008856, and the final linear LAB formulas). -/
theorem rgbToLab_follows_spec (r g b : Fin 256) :
    rgbToLab ((r : ℕ) : ℝ) ((g : ℕ) : ℝ) ((b : ℕ) : ℝ) =
      rgbToLabSpec ((r : ℕ) : ℝ) ((g : ℕ) : ℝ) ((b : ℕ) : ℝ) :=
  rgbToLab_eq_spec_real _ _ _

/-- C3: for every 8-bit RGB triple, the lightness coordinate of
`rgbToLab` lies in the closed interval [0, 100]. -/
theorem rgbToLab_lightness_range (r g b : Fin 256) :
    0 ≤ (rgbToLab ((r : ℕ) : ℝ) ((g : ℕ) : ℝ) ((b : ℕ) : ℝ)).1 ∧
      (rgbToLab ((r : ℕ) : ℝ) ((g : ℕ) : ℝ) ((b : ℕ) : ℝ)).1 ≤ 100 :=
  lightness_mem _ _ _ (by positivity) (by exact_mod_cast r.is_le) (by positivity)
    (by exact_mod_cast g.is_le) (by positivity) (by exact_mod_cast b.is_le)

/-! ### The classifier loop computes the first nearest centroid -/

lemma foldl_selectStep_spec (lab : Lab) (l : List (Color × Lab)) :
    ∀ (c0 : Color) (m0 : WithTop ℝ),
      (List.foldl (selectStep lab) (c0, m0) l = (c0, m0) ∧
        ∀ e ∈ l, m0 ≤ (deltaE lab e.2 : WithTop ℝ)) ∨
      (∃ i : Fin l.length,
        List.foldl (selectStep lab) (c0, m0) l =
          ((l.get i).1, (deltaE lab (l.get i).2 : WithTop ℝ)) ∧
        (deltaE lab (l.get i).2 : WithTop ℝ) < m0 ∧
        (∀ j : Fin l.length, deltaE lab (l.get i).2 ≤ deltaE lab (l.get j).2) ∧
        (∀ j : Fin l.length, (j : ℕ) < (i : ℕ) →
          deltaE lab (l.get i).2 < deltaE lab (l.get j).2)) := by
  induction l with
  | nil =>
    intro c0 m0
    left
    exact ⟨rfl, by simp⟩
  | cons e t ih =>
    intro c0 m0
    rw [List.foldl_cons]
    by_cases h : (deltaE lab e.2 : WithTop ℝ) < m0
    · have hstep : selectStep lab (c0, m0) e = (e.1, (deltaE lab e.2 : WithTop ℝ)) := by
        simp only [selectStep, if_pos h]
      rw [hstep]
      rcases ih e.1 (deltaE lab e.2 : WithTop ℝ) with ⟨heq, hall⟩ | ⟨i, heq, hlt, hmin, hfirst⟩
      · right
        refine ⟨⟨0, by simp⟩, ?_, ?_, ?_, ?_⟩
        · simpa using heq
        · simpa using h
        · intro j
          rcases j with ⟨jv, hjv⟩
          cases jv with
          | zero => simp
          | succ jv' =>
            have hjv' : jv' < t.length := by simpa using hjv
            have hmem : t.get ⟨jv', hjv'⟩ ∈ t := t.get_mem _ _
            have := WithTop.coe_le_coe.mp (hall _ hmem)
            simpa using this
        · intro j hj
          simp at hj
      · right
        refine ⟨i.succ, ?_, ?_, ?_, ?_⟩
        · simpa using heq
        · exact lt_trans hlt h
        · intro j
          rcases j with ⟨jv, hjv⟩
          cases jv with
          | zero =>
            have := le_of_lt (WithTop.coe_lt_coe.mp hlt)
            simpa using this
          | succ jv' =>
            have hjv' : jv' < t.length := by simpa using hjv
            have := hmin ⟨jv', hjv'⟩
            simpa using this
        · intro j hj
          rcases j with ⟨jv, hjv⟩
          cases jv with
          | zero =>
            have := WithTop.coe_lt_coe.mp hlt
            simpa using this
          | succ jv' =>
            have hjv' : jv' < t.length := by simpa using hjv
            have hj' : jv' < (i : ℕ) := by simpa using hj
            have := hfirst ⟨jv', hjv'⟩ hj'
            simpa using this
    · have hstep : selectStep lab (c0, m0) e = (c0, m0) := by
        simp only [selectStep, if_neg h]
      rw [hstep]
      have hle : m0 ≤ (deltaE lab e.2 : WithTop ℝ) := not_lt.mp h
      rcases ih c0 m0 with ⟨heq, hall⟩ | ⟨i, heq, hlt, hmin, hfirst⟩
      · left
        refine ⟨heq, ?_⟩
        intro e' he'
        rcases List.mem_cons.mp he' with rfl | he'
        · exact hle
        · exact hall e' he'
      · right
        refine ⟨i.succ, by simpa using heq, hlt, ?_, ?_⟩
        · intro j
          rcases j with ⟨jv, hjv⟩
          cases jv with
          | zero =>
            have := WithTop.coe_le_coe.mp (le_of_lt (lt_of_lt_of_le hlt hle))
            simpa using this
          | succ jv' =>
            have hjv' : jv' < t.length := by simpa using hjv
            have := hmin ⟨jv', hjv'⟩
            simpa using this
        · intro j hj
          rcases j with ⟨jv, hjv⟩
          cases jv with
          | zero =>
            have := WithTop.coe_lt_coe.mp (lt_of_lt_of_le hlt hle)
            simpa using this
          | succ jv' =>
            have hjv' : jv' < t.length := by simpa using hjv
            have hj' : jv' < (i : ℕ) := by simpa using hj
            have := hfirst ⟨jv', hjv'⟩ hj'
            simpa using this

lemma selectClosest_spec (lab : Lab) :
    ∃ i : Fin COLOR_CENTROIDS.length,
      selectClosest lab = (COLOR_CENTROIDS.get i).1 ∧
      (∀ j : Fin COLOR_CENTROIDS.length,
        deltaE lab (COLOR_CENTROIDS.get i).2 ≤ deltaE lab (COLOR_CENTROIDS.get j).2) ∧
      (∀ j : Fin COLOR_CENTROIDS.length, (j : ℕ) < (i : ℕ) →
        deltaE lab (COLOR_CENTROIDS.get i).2 < deltaE lab (COLOR_CENTROIDS.get j).2) := by
  rcases foldl_selectStep_spec lab COLOR_CENTROIDS Color.white ⊤ with
    ⟨heq, hall⟩ | ⟨i, heq, _, hmin, hfirst⟩
  · exfalso
    have hmem : (Color.white, ((95 : ℝ), (0 : ℝ), (0 : ℝ))) ∈ COLOR_CENTROIDS := by
      simp [COLOR_CENTROIDS]
    exact WithTop.not_top_le_coe _ (hall _ hmem)
  · exact ⟨i, by unfold selectClosest; rw [heq], hmin, hfirst⟩

lemma selectClosest_strictMin (lab : Lab) (i : Fin COLOR_CENTROIDS.length)
    (h : ∀ j : Fin COLOR_CENTROIDS.length, j ≠ i →
      deltaE lab (COLOR_CENTROIDS.get i).2 < deltaE lab (COLOR_CENTROIDS.get j).2) :
    selectClosest lab = (COLOR_CENTROIDS.get i).1 := by
  obtain ⟨i', heq, hmin, _⟩ := selectClosest_spec lab
  by_cases hii : i' = i
  · rw [heq, hii]
  · have h1 := h i' hii
    have h2 := hmin i
    linarith

/-- C2: for every input LAB 3-tuple, the classifier's selection returns
the label of a table entry whose centroid realizes the minimum Euclidean
distance, and every entry occurring strictly earlier in the table's fixed
order (white, yellow, red, orange, blue, green) is strictly farther — so
ties are broken by first-encountered order.  The selection is total: it
produces one of the table's labels for every real-valued input, and
`getClosestColor` is exactly this selection applied after `rgbToLab`. -/
theorem getClosestColor_nearest_centroid (lab : Lab) :
    ∃ i : Fin COLOR_CENTROIDS.length,
      selectClosest lab = (COLOR_CENTROIDS.get i).1 ∧
      (∀ j : Fin COLOR_CENTROIDS.length,
        deltaE lab (COLOR_CENTROIDS.get i).2 ≤ deltaE lab (COLOR_CENTROIDS.get j).2) ∧
      (∀ j : Fin COLOR_CENTROIDS.length, (j : ℕ) < (i : ℕ) →
        deltaE lab (COLOR_CENTROIDS.get i).2 < deltaE lab (COLOR_CENTROIDS.get j).2) ∧
      (∀ r g b : ℝ, getClosestColor r g b = selectClosest (rgbToLab r g b)) := by
  obtain ⟨i, h1, h2, h3⟩ := selectClosest_spec lab
  exact ⟨i, h1, h2, h3, fun _ _ _ => rfl⟩

/-! ### Distance facts and centroid idempotence -/

lemma deltaE_self (p : Lab) : deltaE p p = 0 := by
  simp [deltaE]

lemma deltaE_self_lt (p q : Lab)
    (h : 0 < (p.1 - q.1) ^ 2 + (p.2.1 - q.2.1) ^ 2 + (p.2.2 - q.2.2) ^ 2) :
    deltaE p p < deltaE p q := by
  rw [deltaE_self]
  exact Real.sqrt_pos.mpr h

/-- C5: the classifier is idempotent on centroids: for each of the six
labels, running the nearest-centroid selection on that label's own
reference centroid returns the label itself. -/
theorem selectClosest_idempotent (c : Color) : selectClosest (centroidOf c) = c := by
  cases c
  · refine selectClosest_strictMin _ ⟨0, by norm_num [COLOR_CENTROIDS]⟩ ?_
    intro j hj
    fin_cases j <;>
      first
        | exact absurd rfl hj
        | exact deltaE_self_lt _ _ (by norm_num [COLOR_CENTROIDS, centroidOf])
  · refine selectClosest_strictMin _ ⟨1, by norm_num [COLOR_CENTROIDS]⟩ ?_
    intro j hj
    fin_cases j <;>
      first
        | exact absurd rfl hj
        | exact deltaE_self_lt _ _ (by norm_num [COLOR_CENTROIDS, centroidOf])
  · refine selectClosest_strictMin _ ⟨2, by norm_num [COLOR_CENTROIDS]⟩ ?_
    intro j hj
    fin_cases j <;>
      first
        | exact absurd rfl hj
        | exact deltaE_self_lt _ _ (by norm_num [COLOR_CENTROIDS, centroidOf])
  · refine selectClosest_strictMin _ ⟨3, by norm_num [COLOR_CENTROIDS]⟩ ?_
    intro j hj
    fin_cases j <;>
      first
        | exact absurd rfl hj
        | exact deltaE_self_lt _ _ (by norm_num [COLOR_CENTROIDS, centroidOf])
  · refine selectClosest_strictMin _ ⟨4, by norm_num [COLOR_CENTROIDS]⟩ ?_
    intro j hj
    fin_cases j <;>
      first
        | exact absurd rfl hj
        | exact deltaE_self_lt _ _ (by norm_num [COLOR_CENTROIDS, centroidOf])
  · refine selectClosest_strictMin _ ⟨5, by norm_num [COLOR_CENTROIDS]⟩ ?_
    intro j hj
    fin_cases j <;>
      first
        | exact absurd rfl hj
        | exact deltaE_self_lt _ _ (by norm_num [COLOR_CENTROIDS, centroidOf])

/-- C6: the Euclidean distance used by the classifier is symmetric and
non-negative on every pair of LAB 3-tuples. -/
theorem deltaE_symm_nonneg (p q : Lab) : deltaE p q = deltaE q p ∧ 0 ≤ deltaE p q := by
  constructor
  · unfold deltaE
    congr 1
    ring
  · exact Real.sqrt_nonneg _

/-- C8: every classification result is one of the six defined labels, and
the centroid table has exactly six entries, one per label in the fixed
order, with no duplicate labels. -/
theorem classification_label_invariant :
    (∀ r g b : ℝ, getClosestColor r g b ∈
      [Color.white, Color.yellow, Color.red, Color.orange, Color.blue, Color.green]) ∧
    COLOR_CENTROIDS.map Prod.fst =
      [Color.white, Color.yellow, Color.red, Color.orange, Color.blue, Color.green] ∧
    (COLOR_CENTROIDS.map Prod.fst).Nodup ∧ COLOR_CENTROIDS.length = 6 := by
  refine ⟨?_, rfl, ?_, rfl⟩
  · intro r g b
    cases h : getClosestColor r g b <;> simp
  · rw [show COLOR_CENTROIDS.map Prod.fst =
      [Color.white, Color.yellow, Color.red, Color.orange, Color.blue, Color.green] from rfl]
    decide

/-- C9: the converter and the classifier are deterministic pure functions
of their inputs: equal RGB triples give equal outputs. -/
theorem converter_classifier_deterministic (r g b r' g' b' : ℝ)
    (hr : r = r') (hg : g = g') (hb : b = b') :
    rgbToLab r g b = rgbToLab r' g' b' ∧ getClosestColor r g b = getClosestColor r' g' b' := by
  subst hr
  subst hg
  subst hb
  exact ⟨rfl, rfl⟩

theorem converter_classifier_deterministic_witness :
    (1 : ℝ) = 1 ∧ (2 : ℝ) = 2 ∧ (3 : ℝ) = 3 ∧
    (rgbToLab 1 2 3 = rgbToLab 1 2 3 ∧ getClosestColor 1 2 3 = getClosestColor 1 2 3) :=
  ⟨rfl, rfl, rfl, converter_classifier_deterministic 1 2 3 1 2 3 rfl rfl rfl⟩

/-- C10: recording a scanned face changes only the entry at that face
key: every other face of the resulting cube state is unchanged. -/
theorem handleFaceScan_frame (prev : CubeState) (k k' : FaceKey) (faceData : Face)
    (h : k' ≠ k) : getFace (handleFaceScan prev k faceData) k' = getFace prev k' := by
  cases k <;> cases k' <;> simp_all [handleFaceScan, getFace]

theorem handleFaceScan_frame_witness :
    FaceKey.D ≠ FaceKey.U ∧
    getFace (handleFaceScan INITIAL_CUBE_STATE FaceKey.U (createFace Color.red)) FaceKey.D =
      getFace INITIAL_CUBE_STATE FaceKey.D :=
  ⟨by decide,
    handleFaceScan_frame INITIAL_CUBE_STATE FaceKey.U FaceKey.D (createFace Color.red)
      (by decide)⟩

/-! ### The sampler: averaging and the 3x3 grid -/

lemma foldl_sampleSums (l : List Rgba) :
    ∀ a b c : ℝ,
      l.foldl (fun acc p => (acc.1 + (p.1 : ℝ), acc.2.1 + (p.2.1 : ℝ), acc.2.2 + (p.2.2.1 : ℝ)))
          (a, b, c) =
        (a + (l.map fun p => (p.1 : ℝ)).sum, b + (l.map fun p => (p.2.1 : ℝ)).sum,
          c + (l.map fun p => (p.2.2.1 : ℝ)).sum) := by
  induction l with
  | nil =>
    intro a b c
    simp
  | cons p t ih =>
    intro a b c
    simp only [List.foldl_cons, List.map_cons, List.sum_cons, ih, Prod.mk.injEq]
    refine ⟨by ring, by ring, by ring⟩

lemma sampleSums_eq (data : List Rgba) :
    sampleSums data = ((data.map fun p => (p.1 : ℝ)).sum,
      (data.map fun p => (p.2.1 : ℝ)).sum, (data.map fun p => (p.2.2.1 : ℝ)).sum) := by
  unfold sampleSums
  rw [foldl_sampleSums]
  simp

lemma sampleAverage_eq_mean (data : List Rgba) : sampleAverage data = channelMean data := by
  simp only [sampleAverage, channelMean, sampleSums_eq]

lemma sum_map_const {α : Type} (l : List α) (f : α → ℝ) (c : ℝ) (h : ∀ x ∈ l, f x = c) :
    (l.map f).sum = l.length * c := by
  induction l with
  | nil => simp
  | cons x t ih =>
    simp only [List.map_cons, List.sum_cons, List.length_cons]
    rw [h x (List.mem_cons_self x t), ih fun y hy => h y (List.mem_cons_of_mem x hy)]
    push_cast
    ring

/-- C7: the sampler's per-window output is the channel-wise arithmetic
mean of the sampled pixels; on a 10x10 window (100 pixels) whose pixels
all carry one RGB value, it returns exactly that value; and one face scan
takes nine independent samples, one per cell of the 3x3 grid, each cell
being the classification of its own window's mean. -/
theorem captureFace_sampler_props (data : List Rgba) (r g b : ℕ)
    (hlen : data.length = 100)
    (hall : ∀ p ∈ data, p.1 = r ∧ p.2.1 = g ∧ p.2.2.1 = b) :
    sampleAverage data = (((r : ℕ) : ℝ), ((g : ℕ) : ℝ), ((b : ℕ) : ℝ)) ∧
    (∀ d : List Rgba, sampleAverage d = channelMean d) ∧
    ∀ sample : ℕ → ℕ → List Rgba,
      captureFace sample =
        [[classifyCell sample 0 0, classifyCell sample 0 1, classifyCell sample 0 2],
         [classifyCell sample 1 0, classifyCell sample 1 1, classifyCell sample 1 2],
         [classifyCell sample 2 0, classifyCell sample 2 1, classifyCell sample 2 2]] := by
  refine ⟨?_, sampleAverage_eq_mean, fun sample => rfl⟩
  rw [sampleAverage_eq_mean]
  simp only [channelMean, Prod.mk.injEq]
  refine ⟨?_, ?_, ?_⟩
  · rw [sum_map_const data _ ((r : ℕ) : ℝ) fun p hp => by exact_mod_cast (hall p hp).1, hlen]
    norm_num
  · rw [sum_map_const data _ ((g : ℕ) : ℝ) fun p hp => by exact_mod_cast (hall p hp).2.1, hlen]
    norm_num
  · rw [sum_map_const data _ ((b : ℕ) : ℝ) fun p hp => by exact_mod_cast (hall p hp).2.2, hlen]
    norm_num

theorem captureFace_sampler_props_witness :
    (List.replicate 100 ((3, 4, 5, 6) : Rgba)).length = 100 ∧
    (∀ p ∈ List.replicate 100 ((3, 4, 5, 6) : Rgba), p.1 = 3 ∧ p.2.1 = 4 ∧ p.2.2.1 = 5) ∧
    sampleAverage (List.replicate 100 ((3, 4, 5, 6) : Rgba)) =
      (((3 : ℕ) : ℝ), ((4 : ℕ) : ℝ), ((5 : ℕ) : ℝ)) := by
  have h1 : (List.replicate 100 ((3, 4, 5, 6) : Rgba)).length = 100 := by simp
  have h2 : ∀ p ∈ List.replicate 100 ((3, 4, 5, 6) : Rgba),
      p.1 = 3 ∧ p.2.1 = 4 ∧ p.2.2.1 = 5 := by
    intro p hp
    rw [List.eq_of_mem_replicate hp]
    exact ⟨rfl, rfl, rfl⟩
  exact ⟨h1, h2, (captureFace_sampler_props _ 3 4 5 h1 h2).1⟩

/-! ### Interval bounds for the converter and canonical classifications -/

lemma deltaE_lt_deltaE (p q q' : Lab)
    (h : (p.1 - q.1) ^ 2 + (p.2.1 - q.2.1) ^ 2 + (p.2.2 - q.2.2) ^ 2 <
      (p.1 - q'.1) ^ 2 + (p.2.1 - q'.2.1) ^ 2 + (p.2.2 - q'.2.2) ^ 2) :
    deltaE p q < deltaE p q' := by
  unfold deltaE
  exact Real.sqrt_lt_sqrt (by positivity) h

lemma gammaExpand_bounds (v lo hi : ℝ) (hv : v > 0.04045) (hlo : 0 ≤ lo) (hhi : 0 ≤ hi)
    (h1 : lo ^ 5 ≤ ((v + 0.055) / 1.055) ^ 12) (h2 : ((v + 0.055) / 1.055) ^ 12 ≤ hi ^ 5) :
    lo ≤ gammaExpand v ∧ gammaExpand v ≤ hi := by
  unfold gammaExpand
  rw [if_pos hv]
  have hb : (0 : ℝ) ≤ (v + 0.055) / 1.055 := div_nonneg (by linarith) (by norm_num)
  exact ⟨le_rpow_24 _ _ hb hlo h1, rpow_24_le _ _ hb hhi h2⟩

set_option maxHeartbeats 2000000 in
lemma rgbToLab_bounds (r g b r1 r2 g1 g2 b1 b2 fx1 fx2 fy1 fy2 fz1 fz2 : ℝ)
    (hr1 : r1 ≤ gammaExpand (r / 255)) (hr2 : gammaExpand (r / 255) ≤ r2)
    (hg1 : g1 ≤ gammaExpand (g / 255)) (hg2 : gammaExpand (g / 255) ≤ g2)
    (hb1 : b1 ≤ gammaExpand (b / 255)) (hb2 : gammaExpand (b / 255) ≤ b2)
    (hx0 : (0.008856 : ℝ) < (r1 * 0.4124 + g1 * 0.3576 + b1 * 0.1805) * 100 / 95.047)
    (hy0 : (0.008856 : ℝ) < (r1 * 0.2126 + g1 * 0.7152 + b1 * 0.0722) * 100 / 100.000)
    (hz0 : (0.008856 : ℝ) < (r1 * 0.0193 + g1 * 0.1192 + b1 * 0.9505) * 100 / 108.883)
    (hfx1 : 0 ≤ fx1)
    (hfx1c : fx1 ^ 3 ≤ (r1 * 0.4124 + g1 * 0.3576 + b1 * 0.1805) * 100 / 95.047)
    (hfx2 : 0 ≤ fx2)
    (hfx2c : (r2 * 0.4124 + g2 * 0.3576 + b2 * 0.1805) * 100 / 95.047 ≤ fx2 ^ 3)
    (hfy1 : 0 ≤ fy1)
    (hfy1c : fy1 ^ 3 ≤ (r1 * 0.2126 + g1 * 0.7152 + b1 * 0.0722) * 100 / 100.000)
    (hfy2 : 0 ≤ fy2)
    (hfy2c : (r2 * 0.2126 + g2 * 0.7152 + b2 * 0.0722) * 100 / 100.000 ≤ fy2 ^ 3)
    (hfz1 : 0 ≤ fz1)
    (hfz1c : fz1 ^ 3 ≤ (r1 * 0.0193 + g1 * 0.1192 + b1 * 0.9505) * 100 / 108.883)
    (hfz2 : 0 ≤ fz2)
    (hfz2c : (r2 * 0.0193 + g2 * 0.1192 + b2 * 0.9505) * 100 / 108.883 ≤ fz2 ^ 3) :
    (116 * fy1 - 16 ≤ (rgbToLab r g b).1 ∧ (rgbToLab r g b).1 ≤ 116 * fy2 - 16) ∧
    (500 * (fx1 - fy2) ≤ (rgbToLab r g b).2.1 ∧ (rgbToLab r g b).2.1 ≤ 500 * (fx2 - fy1)) ∧
    (200 * (fy1 - fz2) ≤ (rgbToLab r g b).2.2 ∧ (rgbToLab r g b).2.2 ≤ 200 * (fy2 - fz1)) := by
  have htx1 : (r1 * 0.4124 + g1 * 0.3576 + b1 * 0.1805) * 100 / 95.047 ≤
      (gammaExpand (r / 255) * 0.4124 + gammaExpand (g / 255) * 0.3576 +
        gammaExpand (b / 255) * 0.1805) * 100 / 95.047 := by
    rw [div_le_div_iff_of_pos_right (by norm_num : (0 : ℝ) < 95.047)]
    linarith
  have htx2 : (gammaExpand (r / 255) * 0.4124 + gammaExpand (g / 255) * 0.3576 +
      gammaExpand (b / 255) * 0.1805) * 100 / 95.047 ≤
      (r2 * 0.4124 + g2 * 0.3576 + b2 * 0.1805) * 100 / 95.047 := by
    rw [div_le_div_iff_of_pos_right (by norm_num : (0 : ℝ) < 95.047)]
    linarith
  have hty1 : (r1 * 0.2126 + g1 * 0.7152 + b1 * 0.0722) * 100 / 100.000 ≤
      (gammaExpand (r / 255) * 0.2126 + gammaExpand (g / 255) * 0.7152 +
        gammaExpand (b / 255) * 0.0722) * 100 / 100.000 := by
    rw [div_le_div_iff_of_pos_right (by norm_num : (0 : ℝ) < 100.000)]
    linarith
  have hty2 : (gammaExpand (r / 255) * 0.2126 + gammaExpand (g / 255) * 0.7152 +
      gammaExpand (b / 255) * 0.0722) * 100 / 100.000 ≤
      (r2 * 0.2126 + g2 * 0.7152 + b2 * 0.0722) * 100 / 100.000 := by
    rw [div_le_div_iff_of_pos_right (by norm_num : (0 : ℝ) < 100.000)]
    linarith
  have htz1 : (r1 * 0.0193 + g1 * 0.1192 + b1 * 0.9505) * 100 / 108.883 ≤
      (gammaExpand (r / 255) * 0.0193 + gammaExpand (g / 255) * 0.1192 +
        gammaExpand (b / 255) * 0.9505) * 100 / 108.883 := by
    rw [div_le_div_iff_of_pos_right (by norm_num : (0 : ℝ) < 108.883)]
    linarith
  have htz2 : (gammaExpand (r / 255) * 0.0193 + gammaExpand (g / 255) * 0.1192 +
      gammaExpand (b / 255) * 0.9505) * 100 / 108.883 ≤
      (r2 * 0.0193 + g2 * 0.1192 + b2 * 0.9505) * 100 / 108.883 := by
    rw [div_le_div_iff_of_pos_right (by norm_num : (0 : ℝ) < 108.883)]
    linarith
  have hfx_lo : fx1 ≤ labF ((gammaExpand (r / 255) * 0.4124 + gammaExpand (g / 255) * 0.3576 +
      gammaExpand (b / 255) * 0.1805) * 100 / 95.047) := by
    unfold labF
    rw [if_pos (by linarith)]
    exact le_cbrt _ _ (by linarith) hfx1 (by linarith)
  have hfx_hi : labF ((gammaExpand (r / 255) * 0.4124 + gammaExpand (g / 255) * 0.3576 +
      gammaExpand (b / 255) * 0.1805) * 100 / 95.047) ≤ fx2 := by
    unfold labF
    rw [if_pos (by linarith)]
    exact cbrt_le _ _ (by linarith) hfx2 (by linarith)
  have hfy_lo : fy1 ≤ labF ((gammaExpand (r / 255) * 0.2126 + gammaExpand (g / 255) * 0.7152 +
      gammaExpand (b / 255) * 0.0722) * 100 / 100.000) := by
    unfold labF
    rw [if_pos (by linarith)]
    exact le_cbrt _ _ (by linarith) hfy1 (by linarith)
  have hfy_hi : labF ((gammaExpand (r / 255) * 0.2126 + gammaExpand (g / 255) * 0.7152 +
      gammaExpand (b / 255) * 0.0722) * 100 / 100.000) ≤ fy2 := by
    unfold labF
    rw [if_pos (by linarith)]
    exact cbrt_le _ _ (by linarith) hfy2 (by linarith)
  have hfz_lo : fz1 ≤ labF ((gammaExpand (r / 255) * 0.0193 + gammaExpand (g / 255) * 0.1192 +
      gammaExpand (b / 255) * 0.9505) * 100 / 108.883) := by
    unfold labF
    rw [if_pos (by linarith)]
    exact le_cbrt _ _ (by linarith) hfz1 (by linarith)
  have hfz_hi : labF ((gammaExpand (r / 255) * 0.0193 + gammaExpand (g / 255) * 0.1192 +
      gammaExpand (b / 255) * 0.9505) * 100 / 108.883) ≤ fz2 := by
    unfold labF
    rw [if_pos (by linarith)]
    exact cbrt_le _ _ (by linarith) hfz2 (by linarith)
  have hc1 : (rgbToLab r g b).1 = 116 * labF ((gammaExpand (r / 255) * 0.2126 +
      gammaExpand (g / 255) * 0.7152 + gammaExpand (b / 255) * 0.0722) * 100 / 100.000) - 16 :=
    rfl
  have hc2 : (rgbToLab r g b).2.1 = 500 * (labF ((gammaExpand (r / 255) * 0.4124 +
      gammaExpand (g / 255) * 0.3576 + gammaExpand (b / 255) * 0.1805) * 100 / 95.047) -
      labF ((gammaExpand (r / 255) * 0.2126 + gammaExpand (g / 255) * 0.7152 +
        gammaExpand (b / 255) * 0.0722) * 100 / 100.000)) := rfl
  have hc3 : (rgbToLab r g b).2.2 = 200 * (labF ((gammaExpand (r / 255) * 0.2126 +
      gammaExpand (g / 255) * 0.7152 + gammaExpand (b / 255) * 0.0722) * 100 / 100.000) -
      labF ((gammaExpand (r / 255) * 0.0193 + gammaExpand (g / 255) * 0.1192 +
        gammaExpand (b / 255) * 0.9505) * 100 / 108.883)) := rfl
  rw [hc1, hc2, hc3]
  refine ⟨⟨by linarith, by linarith⟩, ⟨by linarith, by linarith⟩, ⟨by linarith, by linarith⟩⟩

lemma closest_red : getClosestColor 220 38 38 = Color.red := by
  obtain ⟨hR1, hR2⟩ := gammaExpand_bounds ((220 : ℝ) / 255) 0.715693 0.715694
    (by norm_num) (by norm_num) (by norm_num) (by norm_num) (by norm_num)
  obtain ⟨hG1, hG2⟩ := gammaExpand_bounds ((38 : ℝ) / 255) 0.019382 0.019383
    (by norm_num) (by norm_num) (by norm_num) (by norm_num) (by norm_num)
  obtain ⟨hL, hA, hB⟩ := rgbToLab_bounds 220 38 38 0.715693 0.715694 0.019382 0.019383
    0.019382 0.019383 0.685061 0.685063 0.551146 0.551148 0.316576 0.316580
    hR1 hR2 hG1 hG2 hG1 hG2 (by norm_num) (by norm_num) (by norm_num) (by norm_num)
    (by norm_num) (by norm_num) (by norm_num) (by norm_num) (by norm_num) (by norm_num)
    (by norm_num) (by norm_num) (by norm_num) (by norm_num) (by norm_num)
  show selectClosest (rgbToLab 220 38 38) = Color.red
  refine selectClosest_strictMin _ ⟨2, by norm_num [COLOR_CENTROIDS]⟩ ?_
  intro j hj
  fin_cases j <;>
    first
      | exact absurd rfl hj
      | · refine deltaE_lt_deltaE _ _ _ ?_
          norm_num [COLOR_CENTROIDS]
          nlinarith [hL.1, hL.2, hA.1, hA.2, hB.1, hB.2]

lemma closest_white : getClosestColor 255 255 255 = Color.white := by
  obtain ⟨hR1, hR2⟩ := gammaExpand_bounds ((255 : ℝ) / 255) 1 1
    (by norm_num) (by norm_num) (by norm_num) (by norm_num) (by norm_num)
  obtain ⟨hL, hA, hB⟩ := rgbToLab_bounds 255 255 255 1 1 1 1 1 1
    1.000010 1.000011 1 1 1.000052 1.000053
    hR1 hR2 hR1 hR2 hR1 hR2 (by norm_num) (by norm_num) (by norm_num) (by norm_num)
    (by norm_num) (by norm_num) (by norm_num) (by norm_num) (by norm_num) (by norm_num)
    (by norm_num) (by norm_num) (by norm_num) (by norm_num) (by norm_num)
  show selectClosest (rgbToLab 255 255 255) = Color.white
  refine selectClosest_strictMin _ ⟨0, by norm_num [COLOR_CENTROIDS]⟩ ?_
  intro j hj
  fin_cases j <;>
    first
      | exact absurd rfl hj
      | · refine deltaE_lt_deltaE _ _ _ ?_
          norm_num [COLOR_CENTROIDS]
          nlinarith [hL.1, hL.2, hA.1, hA.2, hB.1, hB.2]

lemma closest_yellow : getClosestColor 255 215 0 = Color.yellow := by
  obtain ⟨hR1, hR2⟩ := gammaExpand_bounds ((255 : ℝ) / 255) 1 1
    (by norm_num) (by norm_num) (by norm_num) (by norm_num) (by norm_num)
  obtain ⟨hG1, hG2⟩ := gammaExpand_bounds ((215 : ℝ) / 255) 0.679542 0.679543
    (by norm_num) (by norm_num) (by norm_num) (by norm_num) (by norm_num)
  have hB0 : gammaExpand ((0 : ℝ) / 255) = 0 := by
    unfold gammaExpand
    rw [if_neg (by norm_num)]
    norm_num
  obtain ⟨hL, hA, hB⟩ := rgbToLab_bounds 255 215 0 1 1 0.679542 0.679543 0 0
    0.883466 0.883468 0.887315 0.887316 0.451629 0.451630
    hR1 hR2 hG1 hG2 (le_of_eq hB0.symm) (le_of_eq hB0) (by norm_num) (by norm_num)
    (by norm_num) (by norm_num) (by norm_num) (by norm_num) (by norm_num) (by norm_num)
    (by norm_num) (by norm_num) (by norm_num) (by norm_num) (by norm_num) (by norm_num)
    (by norm_num)
  show selectClosest (rgbToLab 255 215 0) = Color.yellow
  refine selectClosest_strictMin _ ⟨1, by norm_num [COLOR_CENTROIDS]⟩ ?_
  intro j hj
  fin_cases j <;>
    first
      | exact absurd rfl hj
      | · refine deltaE_lt_deltaE _ _ _ ?_
          norm_num [COLOR_CENTROIDS]
          nlinarith [hL.1, hL.2, hA.1, hA.2, hB.1, hB.2]

lemma closest_orange : getClosestColor 249 115 22 = Color.orange := by
  obtain ⟨hR1, hR2⟩ := gammaExpand_bounds ((249 : ℝ) / 255) 0.947306 0.947307
    (by norm_num) (by norm_num) (by norm_num) (by norm_num) (by norm_num)
  obtain ⟨hG1, hG2⟩ := gammaExpand_bounds ((115 : ℝ) / 255) 0.171441 0.171442
    (by norm_num) (by norm_num) (by norm_num) (by norm_num) (by norm_num)
  obtain ⟨hB1, hB2⟩ := gammaExpand_bounds ((22 : ℝ) / 255) 0.008023 0.008024
    (by norm_num) (by norm_num) (by norm_num) (by norm_num) (by norm_num)
  obtain ⟨hL, hA, hB⟩ := rgbToLab_bounds 249 115 22 0.947306 0.947307 0.171441 0.171442
    0.008023 0.008024 0.781367 0.781369 0.687245 0.687247 0.349150 0.349154
    hR1 hR2 hG1 hG2 hB1 hB2 (by norm_num) (by norm_num) (by norm_num) (by norm_num)
    (by norm_num) (by norm_num) (by norm_num) (by norm_num) (by norm_num) (by norm_num)
    (by norm_num) (by norm_num) (by norm_num) (by norm_num) (by norm_num)
  show selectClosest (rgbToLab 249 115 22) = Color.orange
  refine selectClosest_strictMin _ ⟨3, by norm_num [COLOR_CENTROIDS]⟩ ?_
  intro j hj
  fin_cases j <;>
    first
      | exact absurd rfl hj
      | · refine deltaE_lt_deltaE _ _ _ ?_
          norm_num [COLOR_CENTROIDS]
          nlinarith [hL.1, hL.2, hA.1, hA.2, hB.1, hB.2]

lemma closest_blue : getClosestColor 37 99 235 = Color.blue := by
  obtain ⟨hR1, hR2⟩ := gammaExpand_bounds ((37 : ℝ) / 255) 0.018500 0.018501
    (by norm_num) (by norm_num) (by norm_num) (by norm_num) (by norm_num)
  obtain ⟨hG1, hG2⟩ := gammaExpand_bounds ((99 : ℝ) / 255) 0.124771 0.124772
    (by norm_num) (by norm_num) (by norm_num) (by norm_num) (by norm_num)
  obtain ⟨hB1, hB2⟩ := gammaExpand_bounds ((235 : ℝ) / 255) 0.830769 0.830770
    (by norm_num) (by norm_num) (by norm_num) (by norm_num) (by norm_num)
  obtain ⟨hL, hA, hB⟩ := rgbToLab_bounds 37 99 235 0.018500 0.018501 0.124771 0.124772
    0.830769 0.830770 0.596964 0.596966 0.535023 0.535025 0.904182 0.904184
    hR1 hR2 hG1 hG2 hB1 hB2 (by norm_num) (by norm_num) (by norm_num) (by norm_num)
    (by norm_num) (by norm_num) (by norm_num) (by norm_num) (by norm_num) (by norm_num)
    (by norm_num) (by norm_num) (by norm_num) (by norm_num) (by norm_num)
  show selectClosest (rgbToLab 37 99 235) = Color.blue
  refine selectClosest_strictMin _ ⟨4, by norm_num [COLOR_CENTROIDS]⟩ ?_
  intro j hj
  fin_cases j <;>
    first
      | exact absurd rfl hj
      | · refine deltaE_lt_deltaE _ _ _ ?_
          norm_num [COLOR_CENTROIDS]
          nlinarith [hL.1, hL.2, hA.1, hA.2, hB.1, hB.2]

lemma closest_green : getClosestColor 22 163 74 = Color.green := by
  obtain ⟨hR1, hR2⟩ := gammaExpand_bounds ((22 : ℝ) / 255) 0.008023 0.008024
    (by norm_num) (by norm_num) (by norm_num) (by norm_num) (by norm_num)
  obtain ⟨hG1, hG2⟩ := gammaExpand_bounds ((163 : ℝ) / 255) 0.366252 0.366253
    (by norm_num) (by norm_num) (by norm_num) (by norm_num) (by norm_num)
  obtain ⟨hB1, hB2⟩ := gammaExpand_bounds ((74 : ℝ) / 255) 0.068478 0.068479
    (by norm_num) (by norm_num) (by norm_num) (by norm_num) (by norm_num)
  obtain ⟨hL, hA, hB⟩ := rgbToLab_bounds 22 163 74 0.008023 0.008024 0.366252 0.366253
    0.068478 0.068479 0.536338 0.536340 0.645205 0.645207 0.464183 0.464186
    hR1 hR2 hG1 hG2 hB1 hB2 (by norm_num) (by norm_num) (by norm_num) (by norm_num)
    (by norm_num) (by norm_num) (by norm_num) (by norm_num) (by norm_num) (by norm_num)
    (by norm_num) (by norm_num) (by norm_num) (by norm_num) (by norm_num)
  show selectClosest (rgbToLab 22 163 74) = Color.green
  refine selectClosest_strictMin _ ⟨5, by norm_num [COLOR_CENTROIDS]⟩ ?_
  intro j hj
  fin_cases j <;>
    first
      | exact absurd rfl hj
      | · refine deltaE_lt_deltaE _ _ _ ?_
          norm_num [COLOR_CENTROIDS]
          nlinarith [hL.1, hL.2, hA.1, hA.2, hB.1, hB.2]

/-- C4: classifying each of the six reference colors at its canonical RGB
value from `COLOR_MAP` — white (255,255,255), yellow (255,215,0), red
(220,38,38), orange (249,115,22), blue (37,99,235), green (22,163,74) —
yields the corresponding label. -/
theorem getClosestColor_canonical (c : Color) :
    getClosestColor (((COLOR_MAP c).1 : ℕ) : ℝ) (((COLOR_MAP c).2.1 : ℕ) : ℝ)
      (((COLOR_MAP c).2.2 : ℕ) : ℝ) = c := by
  cases c
  · simpa [COLOR_MAP] using closest_white
  · simpa [COLOR_MAP] using closest_yellow
  · simpa [COLOR_MAP] using closest_red
  · simpa [COLOR_MAP] using closest_orange
  · simpa [COLOR_MAP] using closest_blue
  · simpa [COLOR_MAP] using closest_green
